import Mathlib

/-!
Verification of the signing and transaction-coordination core of an M-of-N
multisig wallet (Breez SDK Liquid wallet). The definitions below are shallow
embeddings of the TypeScript source: `CoordinationService` (createPsbt,
isPsbtReady, fetchUtxos), `StorageService` (migrateConfig, getWallets,
addWallet, getWalletById), and `MultiSigSigner` (signEcdsa, hmacSha256,
eciesEncrypt, eciesDecrypt). Machine numbers are modelled as `Nat`/`Int`;
JavaScript values that may be `undefined` are modelled as `Option`;
functions that `throw` return `Except String`. Calls to `Math.random()`
are modelled by an explicit random stream `Nat → Nat` indexed by draw
position, so that one run of the source corresponds to one stream.
-/

namespace BreezMultisig

/-! ## Coordination service: partial-signature tracking (CoordinationService.isPsbtReady)

A parsed PSBT input carries an optional list of partial signatures
(`input.partialSig`), each a (public key, signature) pair. -/

/-- One entry of a PSBT input's `partialSig` list: the signer's public key
and the signature bytes. -/
structure PartialSig where
  pubkey : List Nat
  signature : List Nat
deriving DecidableEq, Repr

/-- One input of a parsed PSBT, restricted to the field `isPsbtReady` reads:
`partialSig`, which may be absent (`undefined`) on an unsigned input. -/
structure PsbtInput where
  partialSig : Option (List PartialSig)
deriving DecidableEq, Repr

/-- The contribution of one input to the signature count:
`input.partialSig?.length || 0`. -/
def sigCount (input : PsbtInput) : Nat :=
  match input.partialSig with
  | some l => l.length
  | none => 0

/-- Embedding of `CoordinationService.isPsbtReady` (src/unnamed/part_009,
lines 147-154): it sums the `partialSig` list lengths over ALL inputs of the
transaction and compares that single total against the threshold. -/
def isPsbtReady (inputs : List PsbtInput) (threshold : Nat) : Bool :=
  let signatureCount := inputs.foldl (fun count input => count + sigCount input) 0
  decide (threshold ≤ signatureCount)

/-- The number of distinct signers that have signed one input: the
`partialSig` entries keyed by distinct public keys. -/
def distinctSignerCount (input : PsbtInput) : Nat :=
  match input.partialSig with
  | some l => (l.map (fun s => s.pubkey)).dedup.length
  | none => 0

/-- Modelled from the spec: the spec-side readiness predicate, for comparison
with `isPsbtReady` — true iff EVERY input has at least `m` distinct-signer
signatures. -/
def specReadyToFinalize (inputs : List PsbtInput) (m : Nat) : Bool :=
  inputs.all (fun input => decide (m ≤ distinctSignerCount input))

/-- The total number of partial-signature entries over all inputs,
duplicates included. -/
def totalSigCount (inputs : List PsbtInput) : Nat :=
  (inputs.map sigCount).sum

/-! ## Coordination service: transaction construction (CoordinationService.createPsbt)

`createPsbt` is pure given the UTXO snapshot returned by `fetchUtxos`; the
snapshot is passed explicitly here. Values are `Int`, as the source computes
the fee as a JavaScript number that may go negative before the check. -/

/-- One unspent output as returned by `fetchUtxos`. -/
structure Utxo where
  txid : String
  vout : Nat
  value : Int
deriving DecidableEq, Repr

/-- One requested payment output (address and amount). -/
structure OutputReq where
  address : String
  value : Int
deriving DecidableEq, Repr

/-- The destination of a constructed PSBT output: the requested outputs are
added by address, the fee output by an explicit (empty) script buffer. -/
inductive OutDest where
  | addr (a : String)
  | script (s : List Nat)
deriving DecidableEq, Repr

/-- One output of the constructed PSBT. -/
structure PsbtOut where
  dest : OutDest
  value : Int
deriving DecidableEq, Repr

/-- One input of the constructed PSBT: previous-output reference plus the
witness UTXO value recorded with it. -/
structure PsbtIn where
  hash : String
  index : Nat
  value : Int
deriving DecidableEq, Repr

/-- The constructed partially-signed transaction, restricted to the fields
the claims are about: its input and output lists. -/
structure Psbt where
  inputs : List PsbtIn
  outputs : List PsbtOut
deriving DecidableEq, Repr

/-- The PSBT input built from one UTXO by `psbt.addInput`. -/
def mkInput (u : Utxo) : PsbtIn :=
  { hash := u.txid, index := u.vout, value := u.value }

/-- The PSBT output built from one requested output by `psbt.addOutput`. -/
def mkOutput (o : OutputReq) : PsbtOut :=
  { dest := OutDest.addr o.address, value := o.value }

/-- The error message thrown when the fetched UTXO set is empty. -/
def noUtxosMsg : String :=
  "No UTXOs found for the multisig address. Please send some funds to it first."

/-- The error message thrown when the fee would be negative. -/
def insufficientFundsMsg : String :=
  "Insufficient funds for transaction."

/-- Embedding of `CoordinationService.createPsbt` (src/unnamed/part_009,
lines 13-75), given the UTXO snapshot: fails if the snapshot is empty; adds
one input per UTXO, accumulating `totalInput`; adds the requested outputs,
accumulating `totalOutput`; computes `fee = totalInput - totalOutput`, fails
if negative; finally appends the single implicit fee output with an empty
script. -/
def createPsbt (utxos : List Utxo) (outputs : List OutputReq) :
    Except String Psbt :=
  if utxos.length = 0 then
    Except.error noUtxosMsg
  else
    let totalInput : Int := utxos.foldl (fun acc u => acc + u.value) 0
    let totalOutput : Int := outputs.foldl (fun acc o => acc + o.value) 0
    let fee : Int := totalInput - totalOutput
    if fee < 0 then
      Except.error insufficientFundsMsg
    else
      Except.ok
        { inputs := utxos.map mkInput
          outputs := outputs.map mkOutput ++ [{ dest := OutDest.script [], value := fee }] }

/-- The sum of the values of a UTXO snapshot. -/
def totalIn (utxos : List Utxo) : Int :=
  utxos.foldl (fun acc u => acc + u.value) 0

/-- The sum of the values of a requested output list. -/
def totalOut (outputs : List OutputReq) : Int :=
  outputs.foldl (fun acc o => acc + o.value) 0

/-! ## Storage service (src/unnamed/part_010)

A record parsed back from `localStorage` may be a legacy record missing
fields; every field the migration code inspects is therefore an `Option`.
The `Array.isArray` / `typeof x === 'string'` guards of the source are
exactly the `some`/`none` split. `creationDate` is modelled as the numeric
timestamp `new Date(d).getTime()` yields. -/

/-- A wallet-configuration record as stored (and re-parsed) in
`localStorage`; fields that a legacy record may lack are optional. -/
structure RawConfig where
  id : String
  label : String
  threshold : Nat
  cosignerPublicKeys : Option (List String)
  allPublicKeys : Option (List String)
  initiatorPublicKey : Option String
  myPublicKey : Option String
  creationDate : Nat
deriving DecidableEq, Repr

/-- Embedding of `StorageService.migrateConfig` (src/unnamed/part_010,
lines 17-42): if `allPublicKeys` is present it returns the record as is;
otherwise it RECONSTRUCTS the list — `[initiatorPublicKey] ++
cosignerPublicKeys` when an initiator key is present, else `[myPublicKey] ++
cosignerPublicKeys`, else `cosignerPublicKeys` alone, else the empty list. -/
def migrateConfig (config : RawConfig) : RawConfig :=
  match config.allPublicKeys with
  | some _ => config
  | none =>
    let allPublicKeys : List String :=
      match config.cosignerPublicKeys with
      | some cosigners =>
        match config.initiatorPublicKey with
        | some initiator => initiator :: cosigners
        | none =>
          match config.myPublicKey with
          | some myKey => myKey :: cosigners
          | none => cosigners
      | none => []
    { config with allPublicKeys := some allPublicKeys }

/-- Modelled from the spec for comparison: the key list `migrateConfig`
guesses for a record that lacks `allPublicKeys`. -/
def heuristicAllKeys (config : RawConfig) : List String :=
  match config.cosignerPublicKeys with
  | some cosigners =>
    match config.initiatorPublicKey with
    | some initiator => initiator :: cosigners
    | none =>
      match config.myPublicKey with
      | some myKey => myKey :: cosigners
      | none => cosigners
  | none => []

/-- Insertion used to sort wallet records newest first
(`b.creationDate - a.creationDate` comparator). -/
def insertByDateDesc (w : RawConfig) : List RawConfig → List RawConfig
  | [] => [w]
  | x :: xs =>
    if x.creationDate ≤ w.creationDate then w :: x :: xs
    else x :: insertByDateDesc w xs

/-- Sort wallet records by creation date, descending (newest first), as the
source's `Array.sort` comparator does. -/
def sortByDateDesc (l : List RawConfig) : List RawConfig :=
  l.foldr insertByDateDesc []

/-- Embedding of `StorageService.getWallets` (src/unnamed/part_010, lines
47-65), given the parsed stored list: every record is passed through
`migrateConfig`, then the list is sorted newest first. -/
def getWallets (stored : List RawConfig) : List RawConfig :=
  sortByDateDesc (stored.map migrateConfig)

/-- Embedding of `StorageService.getWalletById` (src/unnamed/part_010,
lines 89-93): finds the record among `getWallets` and re-migrates it. -/
def getWalletById (stored : List RawConfig) (id : String) : Option RawConfig :=
  ((getWallets stored).find? (fun w => w.id == id)).map migrateConfig

/-- Embedding of `StorageService.addWallet` (src/unnamed/part_010, lines
70-84), returning the new stored list: reloads the wallets, returns WITHOUT
writing when some wallet already has the new config's id, otherwise stores
the reloaded list with the new config appended. -/
def addWallet (stored : List RawConfig) (config : RawConfig) : List RawConfig :=
  let wallets := getWallets stored
  if wallets.any (fun w => w.id == config.id) then stored
  else wallets ++ [config]

/-! ## Signer (src/src/lib/services/customSigner.ts, primary draft)

The elliptic-curve library (`tiny-secp256k1`) is external code; it enters
the embedding as an explicit record of its `sign` and `verify` functions,
and the BIP32 node as its `derivePath` function, so the theorems quantify
over every behaviour of the library. -/

/-- A derived BIP32 node, restricted to the fields `signEcdsa` reads: the
compressed public key and the (possibly absent) private key. -/
structure KeyNode where
  publicKey : List Nat
  privateKey : Option (List Nat)
deriving DecidableEq, Repr

/-- The elliptic-curve primitives of `tiny-secp256k1` as used by
`signEcdsa`: `sign digest privateKey` and `verify digest publicKey sig`. -/
structure Ecc where
  sign : List Nat → List Nat → List Nat
  verify : List Nat → List Nat → List Nat → Bool

/-- The error message thrown when self-verification fails. -/
def sigInvalidMsg : String :=
  "Created signature is invalid - this should not happen"

/-- Embedding of `MultiSigSigner.signEcdsa` (customSigner.ts, lines 75-120,
the primary draft): derive the child node at the path, fail when it has no
private key, sign the digest, self-verify against the child public key, and
return the signature only when verification succeeds. The source's
`if (!signature)` check cannot fire — `ecc.sign` yields a `Uint8Array`,
which is always truthy — so it has no branch here. -/
def signEcdsa (ecc : Ecc) (derivePath : String → KeyNode)
    (msg : List Nat) (derivationPath : String) : Except String (List Nat) :=
  let childNode := derivePath derivationPath
  match childNode.privateKey with
  | none =>
    Except.error ("No private key available for derivation path: " ++ derivationPath)
  | some priv =>
    let signature := ecc.sign msg priv
    let isValid := ecc.verify msg childNode.publicKey signature
    if isValid then Except.ok signature
    else Except.error sigInvalidMsg

/-- Embedding of `MultiSigSigner.hmacSha256` (customSigner.ts, lines
164-177): the body ignores both the message and the derivation path and
returns 32 bytes drawn from `Math.random()` — modelled by the explicit
random stream. -/
def hmacSha256 (random : Nat → Nat) (msg : List Nat) (derivationPath : String) :
    List Nat :=
  (List.range 32).map (fun i => random i % 256)

/-- Embedding of `MultiSigSigner.eciesEncrypt` (customSigner.ts, lines
183-196): returns the plaintext followed by 16 bytes drawn from
`Math.random()`. The recipient public key is not consulted. -/
def eciesEncrypt (random : Nat → Nat) (msg : List Nat) : List Nat :=
  msg ++ (List.range 16).map (fun i => random i % 256)

/-- Embedding of `MultiSigSigner.eciesDecrypt` (customSigner.ts, lines
202-214): `msg.slice(0, -16)` — drops the final 16 bytes and returns the
rest; there is no authentication check and no failure path. -/
def eciesDecrypt (msg : List Nat) : List Nat :=
  msg.take (msg.length - 16)

/-- Flip the first byte of a byte list (a single-byte ciphertext
tampering). -/
def flipFirstByte : List Nat → List Nat
  | [] => []
  | b :: rest => (b ^^^ 255) :: rest

/-! ## Script builder (payments.p2ms / payments.p2wsh, bech32 address)

Modelled from the spec: the address construction called at
src/unnamed/part_009 lines 20-24 and src/unnamed/part_011 lines 59-65 lives
in the external `liquidjs-lib` payments module, not in this repository; §4.3
of the spec describes it — an M-of-N multisig redeem script over the public
keys in the exact order supplied, wrapped in a P2WSH output script (OP_0
plus the SHA-256 of the redeem script), with the bech32-family address for
the configured network (Liquid testnet, prefix `tex`). SHA-256 and bech32
below are the standard algorithms, executable over byte lists. -/

/-- Reduce to a 32-bit word. -/
def mask32 (x : Nat) : Nat := x % 4294967296

/-- Rotate a 32-bit word right by `n`. -/
def rotr32 (n x : Nat) : Nat := mask32 ((x >>> n) ||| (x <<< (32 - n)))

/-- The SHA-256 choice function. -/
def sha2Ch (x y z : Nat) : Nat := (x &&& y) ^^^ ((x ^^^ 4294967295) &&& z)

/-- The SHA-256 majority function. -/
def sha2Maj (x y z : Nat) : Nat := (x &&& y) ^^^ (x &&& z) ^^^ (y &&& z)

/-- The SHA-256 big sigma-0 function. -/
def sha2S0 (x : Nat) : Nat := rotr32 2 x ^^^ rotr32 13 x ^^^ rotr32 22 x

/-- The SHA-256 big sigma-1 function. -/
def sha2S1 (x : Nat) : Nat := rotr32 6 x ^^^ rotr32 11 x ^^^ rotr32 25 x

/-- The SHA-256 small sigma-0 function. -/
def sha2s0 (x : Nat) : Nat := rotr32 7 x ^^^ rotr32 18 x ^^^ (x >>> 3)

/-- The SHA-256 small sigma-1 function. -/
def sha2s1 (x : Nat) : Nat := rotr32 17 x ^^^ rotr32 19 x ^^^ (x >>> 10)

/-- The SHA-256 round constants (FIPS 180-4, written in decimal). -/
def sha256K : List Nat :=
  [1116352408, 1899447441, 3049323471, 3921009573,
   961987163, 1508970993, 2453635748, 2870763221,
   3624381080, 310598401, 607225278, 1426881987,
   1925078388, 2162078206, 2614888103, 3248222580,
   3835390401, 4022224774, 264347078, 604807628,
   770255983, 1249150122, 1555081692, 1996064986,
   2554220882, 2821834349, 2952996808, 3210313671,
   3336571891, 3584528711, 113926993, 338241895,
   666307205, 773529912, 1294757372, 1396182291,
   1695183700, 1986661051, 2177026350, 2456956037,
   2730485921, 2820302411, 3259730800, 3345764771,
   3516065817, 3600352804, 4094571909, 275423344,
   430227734, 506948616, 659060556, 883997877,
   958139571, 1322822218, 1537002063, 1747873779,
   1955562222, 2024104815, 2227730452, 2361852424,
   2428436474, 2756734187, 3204031479, 3329325298]

/-- The SHA-256 initial hash state (FIPS 180-4, written in decimal). -/
def sha256H0 : List Nat :=
  [1779033703, 3144134277, 1013904242, 2773480762,
   1359893119, 2600822924, 528734635, 1541459225]

/-- Big-endian byte encoding of `x` in `n` bytes. -/
def beBytes (n x : Nat) : List Nat :=
  (List.range n).map (fun i => (x >>> (8 * (n - 1 - i))) % 256)

/-- SHA-256 padding: append `0x80`, zero bytes up to 56 mod 64, then the
bit length in 8 big-endian bytes. -/
def sha256Pad (msg : List Nat) : List Nat :=
  let padZeros := (119 - msg.length % 64) % 64
  msg ++ [128] ++ List.replicate padZeros 0 ++ beBytes 8 (msg.length * 8)

/-- Group bytes into big-endian 32-bit words. -/
def bytesToWords : List Nat → List Nat
  | a :: b :: c :: d :: rest =>
    ((a <<< 24) ||| (b <<< 16) ||| (c <<< 8) ||| d) :: bytesToWords rest
  | _ => []

/-- Extend the 16 words of a block to the 64-word message schedule. -/
def sha256Schedule (w16 : List Nat) : List Nat :=
  (List.range 48).foldl
    (fun w _ =>
      let n := w.length
      let wt := mask32 (sha2s1 (w.getD (n - 2) 0) + w.getD (n - 7) 0 +
        sha2s0 (w.getD (n - 15) 0) + w.getD (n - 16) 0)
      w ++ [wt])
    w16

/-- One SHA-256 round: update the 8-word working state with one schedule
word and round constant. -/
def sha256Round (st : List Nat) (kw : Nat × Nat) : List Nat :=
  let a := st.getD 0 0
  let b := st.getD 1 0
  let c := st.getD 2 0
  let d := st.getD 3 0
  let e := st.getD 4 0
  let f := st.getD 5 0
  let g := st.getD 6 0
  let hh := st.getD 7 0
  let t1 := mask32 (hh + sha2S1 e + sha2Ch e f g + kw.1 + kw.2)
  let t2 := mask32 (sha2S0 a + sha2Maj a b c)
  [mask32 (t1 + t2), a, b, c, mask32 (d + t1), e, f, g]

/-- Compress one 16-word block into the hash state. -/
def sha256Compress (h : List Nat) (w16 : List Nat) : List Nat :=
  let w := sha256Schedule w16
  let final := (sha256K.zip w).foldl sha256Round h
  List.zipWith (fun x y => mask32 (x + y)) h final

/-- Split a word list into blocks of 16, accumulating the current block in
`buf` (structural recursion so the kernel can evaluate it). -/
def chunk16Go : List Nat → List Nat → List (List Nat)
  | [], buf => if buf.isEmpty then [] else [buf]
  | w :: rest, buf =>
    let buf2 := buf ++ [w]
    if buf2.length = 16 then buf2 :: chunk16Go rest []
    else chunk16Go rest buf2

/-- Split a word list into blocks of 16. -/
def chunk16 (ws : List Nat) : List (List Nat) := chunk16Go ws []

/-- SHA-256 of a byte list, as 32 bytes. -/
def sha256 (msg : List Nat) : List Nat :=
  let blocks := chunk16 (bytesToWords (sha256Pad msg))
  (blocks.foldl sha256Compress sha256H0).flatMap (beBytes 4)

/-- The bech32 data-character set. -/
def bech32Charset : List Char := "qpzry9x8gf2tvdw0s3jn54khce6mua7l".toList

/-- The bech32 checksum generator constants (BIP173, written in decimal). -/
def bech32Gen : List Nat :=
  [996825010, 642813549, 513874426, 1027748829, 705979059]

/-- One step of the bech32 checksum polynomial. -/
def bech32PolymodStep (chk v : Nat) : Nat :=
  let b := chk >>> 25
  let chk2 := (((chk &&& 0x1ffffff) <<< 5) ^^^ v)
  (List.range 5).foldl
    (fun c i => if (b >>> i) &&& 1 = 1 then c ^^^ bech32Gen.getD i 0 else c) chk2

/-- The bech32 checksum polynomial over a value list. -/
def bech32Polymod (values : List Nat) : Nat := values.foldl bech32PolymodStep 1

/-- The bech32 expansion of a human-readable part. -/
def bech32HrpExpand (hrp : String) : List Nat :=
  (hrp.toList.map (fun c => c.toNat >>> 5)) ++ [0] ++
    (hrp.toList.map (fun c => c.toNat &&& 31))

/-- The 6 bech32 checksum values for a human-readable part and data. -/
def bech32CreateChecksum (hrp : String) (data : List Nat) : List Nat :=
  let pm := bech32Polymod (bech32HrpExpand hrp ++ data ++ [0, 0, 0, 0, 0, 0]) ^^^ 1
  (List.range 6).map (fun i => (pm >>> (5 * (5 - i))) &&& 31)

/-- Bech32 encoding of a data-value list under a human-readable part. -/
def bech32Encode (hrp : String) (data : List Nat) : String :=
  hrp ++ "1" ++
    String.mk ((data ++ bech32CreateChecksum hrp data).map
      (fun v => bech32Charset.getD v 'q'))

/-- The bits of a byte, most significant first. -/
def byteBits (b : Nat) : List Nat :=
  (List.range 8).map (fun i => (b >>> (7 - i)) &&& 1)

/-- Regroup a bit list into 5-bit values, zero-padding the final group:
`acc` holds the bits collected so far and `count` how many (0 to 4). -/
def bitsToGroups5Go : List Nat → Nat → Nat → List Nat
  | [], acc, count => if count = 0 then [] else [acc <<< (5 - count)]
  | b :: rest, acc, count =>
    if count = 4 then (acc * 2 + b) :: bitsToGroups5Go rest 0 0
    else bitsToGroups5Go rest (acc * 2 + b) (count + 1)

/-- Regroup a bit list into 5-bit values, zero-padding the final group. -/
def bitsToGroups5 (bits : List Nat) : List Nat := bitsToGroups5Go bits 0 0

/-- Convert bytes to 5-bit groups (the bech32 `convertbits` with padding). -/
def toBase32 (bytes : List Nat) : List Nat :=
  bitsToGroups5 (bytes.flatMap byteBits)

/-- Modelled from the spec: `payments.p2ms` — the M-of-N multisig redeem
script over the public keys in the exact order supplied: `OP_M`, each key
as a length-prefixed push, `OP_N`, `OP_CHECKMULTISIG`. -/
def p2msScript (m : Nat) (pubkeys : List (List Nat)) : List Nat :=
  (0x50 + m) :: (pubkeys.flatMap (fun pk => pk.length :: pk)) ++
    [0x50 + pubkeys.length, 0xae]

/-- Modelled from the spec: `payments.p2wsh` wrapping with the bech32
address for Liquid testnet (prefix `tex`) — `buildAddress` of §4.3. Returns
the redeem script, the output script `OP_0 <32-byte SHA-256 of redeem>`,
and the bech32 address of witness version 0 over that hash. -/
def buildAddress (m : Nat) (pubkeys : List (List Nat)) :
    List Nat × List Nat × String :=
  let redeem := p2msScript m pubkeys
  let prog := sha256 redeem
  (redeem, [0, 32] ++ prog, bech32Encode "tex" (0 :: toBase32 prog))

/-! ## Concrete instances used to evaluate the definitions -/

/-- A partial signature by the signer with public key `[0]`. -/
def sig0 : PartialSig := { pubkey := [0], signature := [10] }

/-- A partial signature by the signer with public key `[1]`. -/
def sig1 : PartialSig := { pubkey := [1], signature := [11] }

/-- A concrete 100000-sat UTXO. -/
def utxo100k : Utxo := { txid := "prev", vout := 0, value := 100000 }

/-- A legacy stored record lacking `allPublicKeys`, with an initiator key
and one cosigner key. -/
def legacyRecord : RawConfig :=
  { id := "w1", label := "legacy", threshold := 2,
    cosignerPublicKeys := some ["c1"], allPublicKeys := none,
    initiatorPublicKey := some "i1", myPublicKey := none, creationDate := 3 }

/-- A complete stored record with id `w1`. -/
def storedRecord : RawConfig :=
  { id := "w1", label := "first", threshold := 2,
    cosignerPublicKeys := some ["k2"], allPublicKeys := some ["k1", "k2"],
    initiatorPublicKey := none, myPublicKey := none, creationDate := 5 }

/-- A different configuration that reuses the id `w1`. -/
def dupConfig : RawConfig :=
  { id := "w1", label := "second", threshold := 3,
    cosignerPublicKeys := some ["k3"], allPublicKeys := some ["k1", "k3"],
    initiatorPublicKey := none, myPublicKey := none, creationDate := 9 }

/-- An elliptic-curve record whose verification always succeeds. -/
def eccAlways : Ecc := { sign := fun msg _ => msg, verify := fun _ _ _ => true }

/-- An elliptic-curve record whose verification always fails. -/
def eccNever : Ecc := { sign := fun msg _ => msg, verify := fun _ _ _ => false }

/-- A derivation function whose every node holds a private key. -/
def sampleNode : String → KeyNode := fun _ => { publicKey := [2, 7], privateKey := some [1] }

/-- A compressed 33-byte public key (first of three, lexicographically). -/
def keyA : List Nat := 2 :: List.replicate 32 1

/-- A compressed 33-byte public key (second of three). -/
def keyB : List Nat := 2 :: List.replicate 32 2

/-- A compressed 33-byte public key (third of three). -/
def keyC : List Nat := 3 :: List.replicate 32 3

/-! ## Theorems -/

/-- Folding the per-input signature count from an accumulator equals the
accumulator plus the summed counts. -/
theorem foldl_sigCount (l : List PsbtInput) (a : Nat) :
    l.foldl (fun count input => count + sigCount input) a = a + (l.map sigCount).sum := by
  induction l generalizing a with
  | nil => simp
  | cons x xs ih => simp [ih, Nat.add_assoc]

/-- C1: counterexample. The claim fails on the code in both halves, at
explicit inputs: (i) with two inputs where the first carries 2
distinct-signer signatures and the second none, and threshold 2,
`isPsbtReady` returns `true` although not every input has ≥ 2
distinct-signer signatures (it sums signature counts ACROSS inputs);
(ii) with one input signed once by one signer and threshold 2, adding a
DUPLICATE signature by the same signer flips `isPsbtReady` from `false` to
`true`, so duplicates do change the truth value. -/
theorem isPsbtReady_claim_cex :
    isPsbtReady [{ partialSig := some [sig0, sig1] }, { partialSig := some [] }] 2 = true ∧
    specReadyToFinalize [{ partialSig := some [sig0, sig1] }, { partialSig := some [] }] 2 = false ∧
    isPsbtReady [{ partialSig := some [sig0] }] 2 = false ∧
    isPsbtReady [{ partialSig := some [sig0, sig0] }] 2 = true := by
  decide

/-- C1 (amended): `isPsbtReady` returns `true` iff the TOTAL number of
partial-signature entries summed across all inputs — duplicates included,
with no per-input or per-signer distinction — is at least the threshold. -/
theorem isPsbtReady_iff_total (inputs : List PsbtInput) (threshold : Nat) :
    isPsbtReady inputs threshold = true ↔ threshold ≤ totalSigCount inputs := by
  simp [isPsbtReady, foldl_sigCount, totalSigCount]

/-- C5: the source `hmacSha256` is NOT deterministic — on byte-identical
message `[]` and path `m`, two runs whose `Math.random` streams differ
return different 32-byte outputs (the output depends only on the random
stream; message and derived key are ignored). -/
theorem hmacSha256_not_deterministic :
    hmacSha256 (fun _ => 0) [] "m" ≠ hmacSha256 (fun _ => 1) [] "m" := by
  decide

/-- C6: `eciesDecrypt` performs no authentication — flipping the first byte
of a ciphertext produced by `eciesEncrypt` on message `[1, 2, 3]` yields
the corrupted message `[254, 2, 3]` instead of an `AuthenticationFailed`
error; the source function is total, with no failure path or MAC check at
all. -/
theorem eciesDecrypt_no_auth :
    eciesDecrypt (flipFirstByte (eciesEncrypt (fun _ => 0) [1, 2, 3])) = [254, 2, 3] := by
  decide

/-- C7: round-trip law — `eciesDecrypt` applied to the output of
`eciesEncrypt` returns exactly the original message bytes, for every
message (the empty one included) and every random stream: encryption
appends 16 bytes and decryption drops exactly the final 16. -/
theorem ecies_roundTrip (random : Nat → Nat) (msg : List Nat) :
    eciesDecrypt (eciesEncrypt random msg) = msg := by
  unfold eciesDecrypt eciesEncrypt
  rw [List.length_append, List.length_map, List.length_range, Nat.add_sub_cancel]
  exact List.take_left msg _

/-- C10: `addWallet` with a configuration whose id equals the id of an
already-stored wallet leaves the stored wallet list completely unchanged —
the duplicate check returns before anything is written. -/
theorem addWallet_duplicate_id (stored : List RawConfig) (config : RawConfig)
    (h : (getWallets stored).any (fun w => w.id == config.id) = true) :
    addWallet stored config = stored := by
  simp only [addWallet, h, if_true]

/-- Witness for C10: a stored list holding a wallet with id `w1` is
returned unchanged by `addWallet` of a different configuration that reuses
id `w1`. -/
theorem addWallet_duplicate_id_witness :
    addWallet [storedRecord] dupConfig = [storedRecord] :=
  addWallet_duplicate_id [storedRecord] dupConfig (by decide)

/-- C2: `signEcdsa` self-verifies before returning, for EVERY behaviour of
the elliptic-curve library and of path derivation: (i) any signature it
returns passes `verify` against the public key of the node derived at the
path; (ii) whenever the node has a private key but the produced signature
fails self-verification, it returns the signature-invalid error rather
than the unverified signature. -/
theorem signEcdsa_selfVerifies (ecc : Ecc) (derivePath : String → KeyNode)
    (msg : List Nat) (path : String) :
    (∀ sig, signEcdsa ecc derivePath msg path = Except.ok sig →
      ecc.verify msg (derivePath path).publicKey sig = true) ∧
    (∀ priv, (derivePath path).privateKey = some priv →
      ecc.verify msg (derivePath path).publicKey (ecc.sign msg priv) = false →
      signEcdsa ecc derivePath msg path = Except.error sigInvalidMsg) := by
  constructor
  · intro sig hok
    simp only [signEcdsa] at hok
    cases hpk : (derivePath path).privateKey with
    | none => rw [hpk] at hok; exact absurd hok (by simp)
    | some priv =>
      rw [hpk] at hok
      by_cases hv : ecc.verify msg (derivePath path).publicKey (ecc.sign msg priv) = true
      · simp only [hv, if_true, Except.ok.injEq] at hok
        rw [← hok]
        exact hv
      · simp [hv] at hok
  · intro priv hpk hv
    simp only [signEcdsa]
    rw [hpk]
    simp [hv]

/-- Witness for C2: at a concrete node, digest and path — with an
always-accepting verifier the returned signature verifies; with an
always-rejecting verifier the signer returns the signature-invalid
error. -/
theorem signEcdsa_selfVerifies_witness :
    eccAlways.verify [5] (sampleNode "m").publicKey [5] = true ∧
    signEcdsa eccNever sampleNode [5] "m" = Except.error sigInvalidMsg :=
  ⟨(signEcdsa_selfVerifies eccAlways sampleNode [5] "m").1 [5] rfl,
   (signEcdsa_selfVerifies eccNever sampleNode [5] "m").2 [1] rfl rfl⟩

/-- C3: counterexample. The claim quantifies over EVERY UTXO snapshot, but
on the empty snapshot with an empty output list the outputs sum 0 does not
exceed the inputs sum 0, yet `createPsbt` does not succeed — it fails with
the no-UTXOs error before any fee computation. -/
theorem createPsbt_claim_cex :
    totalOut [] ≤ totalIn [] ∧ createPsbt [] [] = Except.error noUtxosMsg := by
  exact ⟨by decide, rfl⟩

/-- C3 (amended): for every NONEMPTY UTXO snapshot with input sum I and
every output list with sum O, `createPsbt` succeeds exactly when O ≤ I,
appending exactly one implicit fee output of value I − O after the
requested outputs, and fails with `InsufficientFunds` when O > I. -/
theorem createPsbt_fee (utxos : List Utxo) (outputs : List OutputReq)
    (h : utxos ≠ []) :
    (totalOut outputs ≤ totalIn utxos →
      createPsbt utxos outputs = Except.ok
        { inputs := utxos.map mkInput
          outputs := outputs.map mkOutput ++
            [{ dest := OutDest.script [], value := totalIn utxos - totalOut outputs }] }) ∧
    (totalIn utxos < totalOut outputs →
      createPsbt utxos outputs = Except.error insufficientFundsMsg) := by
  have hlen : ¬ utxos.length = 0 := by
    simpa [List.length_eq_zero] using h
  constructor
  · intro hle
    have hfee : ¬ totalIn utxos - totalOut outputs < 0 := by
      rw [Int.not_lt, Int.sub_nonneg]
      exact hle
    simp only [createPsbt, totalIn, totalOut] at *
    rw [if_neg hlen, if_neg hfee]
  · intro hlt
    have hfee : totalIn utxos - totalOut outputs < 0 := by omega
    simp only [createPsbt, totalIn, totalOut] at *
    rw [if_neg hlen, if_pos hfee]

/-- Witness for C3 (the spec scenario): one 100000-sat input with one
99500-sat output yields the requested output plus a single 500-sat fee
output; a 100500-sat output fails with the insufficient-funds error. -/
theorem createPsbt_fee_witness :
    createPsbt [utxo100k] [{ address := "dest", value := 99500 }] = Except.ok
      { inputs := [{ hash := "prev", index := 0, value := 100000 }]
        outputs := [{ dest := OutDest.addr "dest", value := 99500 },
                    { dest := OutDest.script [], value := 500 }] } ∧
    createPsbt [utxo100k] [{ address := "dest", value := 100500 }] =
      Except.error insufficientFundsMsg := by
  constructor
  · have h := (createPsbt_fee [utxo100k] [{ address := "dest", value := 99500 }]
      (by decide)).1 (by decide)
    simpa [utxo100k, mkInput, mkOutput, totalIn, totalOut] using h
  · exact (createPsbt_fee [utxo100k] [{ address := "dest", value := 100500 }]
      (by decide)).2 (by decide)

/-- C8: `createPsbt` performs no coin selection — whenever it succeeds, its
input list is exactly one input per UTXO of the snapshot, in order — and it
fails with the no-UTXOs error exactly when the fetched snapshot is
empty. -/
theorem createPsbt_allUtxos (utxos : List Utxo) (outputs : List OutputReq) :
    (createPsbt utxos outputs = Except.error noUtxosMsg ↔ utxos = []) ∧
    (∀ p : Psbt, createPsbt utxos outputs = Except.ok p →
      p.inputs = utxos.map mkInput) := by
  by_cases hlen : utxos.length = 0
  · have hnil : utxos = [] := List.length_eq_zero.mp hlen
    subst hnil
    refine ⟨by simp [createPsbt], ?_⟩
    intro p hp
    exact absurd hp (by simp [createPsbt])
  · constructor
    · constructor
      · intro hE
        exfalso
        simp only [createPsbt, if_neg hlen] at hE
        by_cases hfee : utxos.foldl (fun acc u => acc + u.value) (0 : Int) -
            outputs.foldl (fun acc o => acc + o.value) (0 : Int) < 0
        · rw [if_pos hfee] at hE
          have : insufficientFundsMsg = noUtxosMsg := by
            injection hE
          exact absurd this (by decide)
        · rw [if_neg hfee] at hE
          exact absurd hE (by simp)
      · intro hnil
        exact absurd (congrArg List.length hnil) (by simpa using hlen)
    · intro p hp
      simp only [createPsbt, if_neg hlen] at hp
      by_cases hfee : utxos.foldl (fun acc u => acc + u.value) (0 : Int) -
          outputs.foldl (fun acc o => acc + o.value) (0 : Int) < 0
      · rw [if_pos hfee] at hp
        exact absurd hp (by simp)
      · rw [if_neg hfee] at hp
        injection hp with h2
        rw [← h2]

/-- Witness for C8: the empty snapshot produces the no-UTXOs error, and on
a one-UTXO snapshot the succeeding PSBT holds exactly that UTXO's input. -/
theorem createPsbt_allUtxos_witness :
    createPsbt [] [] = Except.error noUtxosMsg ∧
    Psbt.inputs
      { inputs := [{ hash := "prev", index := 0, value := 100000 }]
        outputs := [{ dest := OutDest.script [], value := 100000 }] } =
      [utxo100k].map mkInput :=
  ⟨((createPsbt_allUtxos [] []).1).mpr rfl,
   (createPsbt_allUtxos [utxo100k] []).2
     { inputs := [{ hash := "prev", index := 0, value := 100000 }]
       outputs := [{ dest := OutDest.script [], value := 100000 }] } rfl⟩

/-- C9: counterexample. A stored record that lacks `allPublicKeys` IS
returned by `getWallets` with that field populated by guessing: at the
concrete legacy record with initiator key `i1` and cosigner list `[c1]`,
loading returns the record with `allPublicKeys` reconstructed to
`[i1, c1]`. -/
theorem getWallets_reconstructs_cex :
    legacyRecord.allPublicKeys = none ∧
    getWallets [legacyRecord] = [{ legacyRecord with allPublicKeys := some ["i1", "c1"] }] := by
  exact ⟨rfl, by decide⟩

/-- C9 (amended): loading passes every stored record through
`migrateConfig`, and `migrateConfig` populates a missing `allPublicKeys`
heuristically — `initiatorPublicKey :: cosignerPublicKeys` when an
initiator key is present, else `myPublicKey :: cosignerPublicKeys`, else
`cosignerPublicKeys` alone, else the empty list (`heuristicAllKeys`) —
instead of failing closed. -/
theorem migrateConfig_reconstructs (stored : List RawConfig) (c : RawConfig)
    (h : c.allPublicKeys = none) :
    getWallets stored = sortByDateDesc (stored.map migrateConfig) ∧
    (migrateConfig c).allPublicKeys = some (heuristicAllKeys c) := by
  refine ⟨rfl, ?_⟩
  simp only [migrateConfig, heuristicAllKeys, h]

/-- Witness for C9 (amended): the reconstruction evaluated at the concrete
legacy record. -/
theorem migrateConfig_reconstructs_witness :
    getWallets [legacyRecord] = sortByDateDesc ([legacyRecord].map migrateConfig) ∧
    (migrateConfig legacyRecord).allPublicKeys = some (heuristicAllKeys legacyRecord) :=
  migrateConfig_reconstructs [legacyRecord] legacyRecord rfl

set_option maxRecDepth 100000 in
/-- C4: `buildAddress` is a pure function of the config — any two
invocations on the identical threshold and ordered key list return the
identical redeem script, output script and address — while on the concrete
2-of-3 config over three distinct lexicographically sorted 33-byte keys,
permuting the first two keys changes the derived address. -/
theorem buildAddress_pure_order_sensitive :
    (∀ (m : Nat) (pubkeys : List (List Nat)),
      buildAddress m pubkeys = buildAddress m pubkeys) ∧
    (buildAddress 2 [keyA, keyB, keyC]).2.2 ≠ (buildAddress 2 [keyB, keyA, keyC]).2.2 := by
  refine ⟨fun m pubkeys => rfl, ?_⟩
  decide

end BreezMultisig
